import Mathlib

/-!
Verification of the map-line series and exporting-menu components.

The development shallowly embeds the TypeScript sources:
MapLineSeries (makeMapLine, processDataItem, markDirtyValues,
markDirtyProjection, disposeDataItem) and ExportingMenu (default items,
createItems, the keydown arrow-navigation loop, open, close, toggle,
handleClick).  JavaScript numbers never undergo arithmetic in the embedded
code, so coordinates are modelled as rationals; undefined settings are
modelled with Option; DOM elements are dropped and the rendered menu list
is modelled by the list of rendered menu items.
-/

/- ===================== MapLineSeries data model ===================== -/

/-- GeoJSON geometry, restricted to the two types the series accepts. -/
inductive GeoGeometry where
  | lineString (coordinates : List (List ℚ))
  | multiLineString (coordinates : List (List (List ℚ)))
deriving DecidableEq

/-- A data item of a MapPointSeries, as read by MapLineSeries: only the
longitude and latitude settings are consulted when building a line. -/
structure MapPointDataItem where
  longitude : Option ℚ := none
  latitude : Option ℚ := none
deriving DecidableEq

/-- The MapLine shape owned by a line data item: a geometry setting plus a
dirty-projection flag (markDirtyProjection on the shape sets the flag). -/
structure MapLineObj where
  geometry : Option GeoGeometry := none
  dirtyProjection : Bool := false
deriving DecidableEq

/-- A data item of a MapLineSeries: the owned map line, the explicit
geometry setting, and the optional pointsToConnect list. -/
structure LineDataItem where
  mapLine : Option MapLineObj := none
  geometry : Option GeoGeometry := none
  pointsToConnect : Option (List MapPointDataItem) := none
deriving DecidableEq

/-- The coordinate-building loop of markDirtyValues: for each connected
point, push the pair of longitude and latitude, each defaulting to 0 when
the point setting is absent (point.get with default 0). -/
def connectCoordinates : List MapPointDataItem → List (List ℚ) → List (List ℚ)
  | [], coords => coords
  | p :: rest, coords =>
      connectCoordinates rest (coords ++ [[p.longitude.getD 0, p.latitude.getD 0]])

/-- The pair of coordinates contributed by one connected point. -/
def pointPair (p : MapPointDataItem) : List ℚ :=
  [p.longitude.getD 0, p.latitude.getD 0]

/-- MapLineSeries.markDirtyValues restricted to one data item (the branch
taken when a data item is passed): when the item owns a map line, assign the
line geometry from pointsToConnect when that setting is present, otherwise
copy the geometry setting of the data item verbatim.  The super call for a
dirty value does not touch the line and is omitted. -/
def markDirtyValuesItem (d : LineDataItem) : LineDataItem :=
  match d.mapLine with
  | none => d
  | some line =>
    match d.pointsToConnect with
    | some pts =>
        { d with mapLine := some { line with
            geometry := some (GeoGeometry.lineString (connectCoordinates pts [])) } }
    | none =>
        { d with mapLine := some { line with geometry := d.geometry } }

/-- MapLine.markDirtyProjection, as seen from the series: sets the
dirty-projection flag on the shape and touches nothing else. -/
def markDirtyProjectionLine (line : MapLineObj) : MapLineObj :=
  { line with dirtyProjection := true }

/-- MapLineSeries.markDirtyProjection: for every data item, when it has a
map line, invoke markDirtyProjection on that line. -/
def markDirtyProjectionSeries (dataItems : List LineDataItem) : List LineDataItem :=
  dataItems.map (fun d =>
    match d.mapLine with
    | some line => { d with mapLine := some (markDirtyProjectionLine line) }
    | none => d)

/- ======= MapLineSeries line ownership (processDataItem, dispose) ======= -/

/-- The series-level state relevant to line ownership: the mapLines list
(line shapes are identified by numeric ids), the ids already disposed, and
a fresh-id counter standing for allocation of new shapes. -/
structure SeriesState where
  mapLines : List Nat := []
  disposedLines : List Nat := []
  nextLineId : Nat := 0
deriving DecidableEq

/-- A data item as seen by processDataItem and disposeDataItem: the owned
line id and a disposed flag. -/
structure SeriesDataItem where
  mapLine : Option Nat := none
  disposed : Bool := false
deriving DecidableEq

/-- MapLineSeries.makeMapLine: allocate a new line shape and push it onto
the mapLines list; returns the updated series and the new shape. -/
def makeMapLine (s : SeriesState) : SeriesState × Nat :=
  ({ s with mapLines := s.mapLines ++ [s.nextLineId], nextLineId := s.nextLineId + 1 },
   s.nextLineId)

/-- MapLineSeries.processDataItem: make a map line and record it on the
data item (the point-change subscriptions and the series back-reference do
not affect ownership and are omitted). -/
def processDataItem (s : SeriesState) (d : SeriesDataItem) : SeriesState × SeriesDataItem :=
  let r := makeMapLine s
  (r.1, { d with mapLine := some r.2 })

/-- Modelled from the spec: MapSeries.disposeDataItem, the super call of
MapLineSeries.disposeDataItem, is not among the sources under review.  Per
the spec, removing a data item releases the ownership relation; the base
class disposes the data item itself, which is modelled by the disposed
flag. -/
def superDisposeDataItem (d : SeriesDataItem) : SeriesDataItem :=
  { d with disposed := true }

/-- MapLineSeries.disposeDataItem: call super, then when the item has a map
line remove it from the mapLines list (removeValue removes the first
occurrence) and dispose the shape. -/
def disposeDataItem (s : SeriesState) (d : SeriesDataItem) : SeriesState × SeriesDataItem :=
  let d1 := superDisposeDataItem d
  match d.mapLine with
  | none => (s, d1)
  | some line =>
      ({ s with mapLines := s.mapLines.erase line,
                disposedLines := s.disposedLines ++ [line] }, d1)

/- ===================== ExportingMenu data model ===================== -/

/-- Export formats appearing in the menu sources. -/
inductive ExpFormat where
  | png | jpg | pdf | json | csv | xlsx | pdfdata | html | print
deriving DecidableEq

/-- Export categories. -/
inductive ExpType where
  | image | data | print
deriving DecidableEq

/-- The kind of a menu item. -/
inductive MenuItemType where
  | format | separator | custom
deriving DecidableEq

/-- A configured menu item; the rendered DOM element and the custom
callback do not take part in the verified behaviour. -/
structure IMenuItem where
  type : MenuItemType
  format : Option ExpFormat := none
  exportType : Option ExpType := none
  label : Option String := none
  sublabel : Option String := none
deriving DecidableEq

/-- The Exporting collaborator, reduced to the two capability queries the
menu reads. -/
structure Exporter where
  supportedFormats : List ExpFormat
  supportedExportTypes : List ExpType
deriving DecidableEq

/-- First skip test of createItems: an item with a format outside the
supported-format list is skipped (supportedFormats.indexOf equal to -1). -/
def formatSupported (ex : Exporter) (it : IMenuItem) : Bool :=
  match it.format with
  | none => true
  | some f => decide (f ∈ ex.supportedFormats)

/-- Second skip test of createItems: an item with an export type outside
the supported-type list is skipped. -/
def exportTypeSupported (ex : Exporter) (it : IMenuItem) : Bool :=
  match it.exportType with
  | none => true
  | some t => decide (t ∈ ex.supportedExportTypes)

/-- The rendering loop of createItems: walk the configured items in order,
skip unsupported ones, and push a rendered entry for each of the others. -/
def createItemsLoop (ex : Exporter) (acc : List IMenuItem) : List IMenuItem → List IMenuItem
  | [] => acc
  | it :: rest =>
    if formatSupported ex it = false then createItemsLoop ex acc rest
    else if exportTypeSupported ex it = false then createItemsLoop ex acc rest
    else createItemsLoop ex (acc ++ [it]) rest

/-- The menu configuration and rendered-element state used by
createItems. -/
structure MenuConfig where
  exporting : Option Exporter := none
  items : List IMenuItem := []
  itemElements : List IMenuItem := []
deriving DecidableEq

/-- ExportingMenu.createItems: with no exporter it returns before touching
anything; otherwise it clears the rendered list and refills it from the
configured items via the rendering loop. -/
def createItems (s : MenuConfig) : MenuConfig :=
  match s.exporting with
  | none => s
  | some ex => { s with itemElements := createItemsLoop ex [] s.items }

/-- The default item list installed by afterNew, with the translate calls
resolved in the default locale (translate returns its key). -/
def defaultItems : List IMenuItem :=
  [ { type := MenuItemType.separator, label := some "Export" },
    { type := MenuItemType.format, format := some ExpFormat.png,
      exportType := some ExpType.image, label := some "PNG", sublabel := some "Image" },
    { type := MenuItemType.format, format := some ExpFormat.jpg,
      exportType := some ExpType.image, label := some "JPG", sublabel := some "Image" },
    { type := MenuItemType.format, format := some ExpFormat.pdf,
      exportType := some ExpType.image, label := some "PDF", sublabel := some "Image" },
    { type := MenuItemType.separator, exportType := some ExpType.data },
    { type := MenuItemType.format, format := some ExpFormat.json,
      exportType := some ExpType.data, label := some "JSON", sublabel := some "Data" },
    { type := MenuItemType.format, format := some ExpFormat.csv,
      exportType := some ExpType.data, label := some "CSV", sublabel := some "Data" },
    { type := MenuItemType.format, format := some ExpFormat.xlsx,
      exportType := some ExpType.data, label := some "XLSX", sublabel := some "Data" },
    { type := MenuItemType.format, format := some ExpFormat.pdfdata,
      exportType := some ExpType.data, label := some "PDF", sublabel := some "Data" },
    { type := MenuItemType.format, format := some ExpFormat.html,
      exportType := some ExpType.data, label := some "HTML", sublabel := some "Data" },
    { type := MenuItemType.separator },
    { type := MenuItemType.format, format := some ExpFormat.print,
      exportType := some ExpType.print, label := some "Print" } ]

/-- Test selecting the format items among rendered entries. -/
def isFormatItem (it : IMenuItem) : Bool :=
  match it.type with
  | MenuItemType.format => true
  | _ => false

/- ================= ExportingMenu open and close protocol ================ -/

/-- Lifecycle events dispatched by the menu. -/
inductive MenuEvent where
  | menucreated | menuopened | menuclosed
deriving DecidableEq

/-- Open-state plus the ordered trace of dispatched lifecycle events. -/
structure MenuState where
  isOpen : Bool
  dispatched : List MenuEvent
deriving DecidableEq

/-- Construction: the isOpen field initialises to false, and afterNew ends
by dispatching menucreated. -/
def afterNewMenu : MenuState :=
  { isOpen := false, dispatched := [MenuEvent.menucreated] }

/-- ExportingMenu.open: set isOpen, then dispatch menuopened. -/
def openMenu (s : MenuState) : MenuState :=
  { s with isOpen := true, dispatched := s.dispatched ++ [MenuEvent.menuopened] }

/-- ExportingMenu.close: clear isOpen (the blur and class updates have no
verified state), then dispatch menuclosed. -/
def closeMenu (s : MenuState) : MenuState :=
  { s with isOpen := false, dispatched := s.dispatched ++ [MenuEvent.menuclosed] }

/-- ExportingMenu.toggle: close when open, open when closed. -/
def toggleMenu (s : MenuState) : MenuState :=
  if s.isOpen then closeMenu s else openMenu s

/-- A call against the menu state machine. -/
inductive MenuOp where
  | opOpen | opClose | opToggle
deriving DecidableEq

/-- Apply one state-machine call. -/
def applyMenuOp (s : MenuState) : MenuOp → MenuState
  | MenuOp.opOpen => openMenu s
  | MenuOp.opClose => closeMenu s
  | MenuOp.opToggle => toggleMenu s

/-- Apply a sequence of state-machine calls in order. -/
def applyMenuOps (s : MenuState) : List MenuOp → MenuState
  | [] => s
  | op :: rest => applyMenuOps (applyMenuOp s op) rest

/- ===================== ExportingMenu click handling ==================== -/

/-- The observable calls a click makes, in order: closing the menu, the
print call, or the download call with the format of the item. -/
inductive ClickAction where
  | closeMenu
  | printCall
  | downloadCall (format : Option ExpFormat)
deriving DecidableEq

/-- ExportingMenu.handleClick: read the exporting setting with a non-null
assertion; when autoClose is set, close the menu first; then invoke print
for the print sentinel and download otherwise.  With no exporter the
method call on the undefined exporter throws: the result is an error
carrying the actions already performed before the throw. -/
def handleClick (exporting : Option Exporter) (autoClose : Bool) (it : IMenuItem) :
    Except (List ClickAction) (List ClickAction) :=
  let pre := if autoClose then [ClickAction.closeMenu] else []
  match exporting with
  | none => Except.error pre
  | some _ =>
    if it.format = some ExpFormat.print then Except.ok (pre ++ [ClickAction.printCall])
    else Except.ok (pre ++ [ClickAction.downloadCall it.format])

/- ===================== helper lemmas ===================== -/

theorem connectCoordinates_eq_map (pts : List MapPointDataItem) (acc : List (List ℚ)) :
    connectCoordinates pts acc = acc ++ pts.map pointPair := by
  induction pts generalizing acc with
  | nil => simp [connectCoordinates]
  | cons p rest ih =>
      simp [connectCoordinates, pointPair, ih, List.append_assoc]

theorem createItemsLoop_eq_filter (ex : Exporter) (items acc : List IMenuItem) :
    createItemsLoop ex acc items =
      acc ++ items.filter (fun it => formatSupported ex it && exportTypeSupported ex it) := by
  induction items generalizing acc with
  | nil => simp [createItemsLoop]
  | cons it rest ih =>
      cases h1 : formatSupported ex it with
      | false => simp [createItemsLoop, h1, ih, List.filter_cons]
      | true =>
        cases h2 : exportTypeSupported ex it with
        | false => simp [createItemsLoop, h1, h2, ih, List.filter_cons]
        | true =>
          simp [createItemsLoop, h1, h2, ih, List.filter_cons, List.append_assoc]

theorem applyMenuOps_menucreated_count (ops : List MenuOp) (s : MenuState) :
    ((applyMenuOps s ops).dispatched.count MenuEvent.menucreated) =
      s.dispatched.count MenuEvent.menucreated := by
  induction ops generalizing s with
  | nil => rfl
  | cons op rest ih =>
      have hop : ((applyMenuOp s op).dispatched.count MenuEvent.menucreated) =
          s.dispatched.count MenuEvent.menucreated := by
        cases op <;>
          simp [applyMenuOp, openMenu, closeMenu, toggleMenu] <;>
          split <;>
          simp [closeMenu, openMenu, List.count_append]
      simp [applyMenuOps, ih, hop]

/- ===================== claim theorems: MapLineSeries ===================== -/

/-- C1: markDirtyValues with a data item owning a map line assigns the line
geometry as follows: with pointsToConnect set, a LineString whose
coordinates are, in point order, the longitude-latitude pairs of the
connected points with 0 substituted for a missing coordinate; without
pointsToConnect, exactly the geometry setting of the data item. -/
theorem markDirtyValues_geometry_spec (d : LineDataItem) (line : MapLineObj)
    (h : d.mapLine = some line) :
    (∀ pts, d.pointsToConnect = some pts →
      (markDirtyValuesItem d).mapLine = some { line with
         geometry := some (GeoGeometry.lineString (pts.map pointPair)) }) ∧
    (d.pointsToConnect = none →
      (markDirtyValuesItem d).mapLine = some { line with geometry := d.geometry }) := by
  constructor
  · intro pts hpts
    simp [markDirtyValuesItem, h, hpts, connectCoordinates_eq_map]
  · intro hnone
    simp [markDirtyValuesItem, h, hnone]

/-- Witness for C1 at a concrete data item: two connected points, each
missing one coordinate, produce the LineString with zeros substituted. -/
theorem markDirtyValues_geometry_witness :
    (markDirtyValuesItem
      { mapLine := some { geometry := none, dirtyProjection := false },
        geometry := none,
        pointsToConnect := some
          [ { longitude := some 1, latitude := none },
            { longitude := none, latitude := some 2 } ] }).mapLine =
    some { geometry := some (GeoGeometry.lineString
            ([ { longitude := some 1, latitude := none },
               { longitude := none, latitude := some 2 } ].map pointPair)),
           dirtyProjection := false } :=
  (markDirtyValues_geometry_spec _ _ rfl).1 _ rfl

/-- C9: markDirtyProjection invokes the dirty-projection operation on the
map line of every data item that has one, and leaves every geometry (of
lines and of data items) and every other setting unchanged. -/
theorem markDirtyProjection_spec (items : List LineDataItem) (i : Nat) (d : LineDataItem)
    (h : items[i]? = some d) :
    ((markDirtyProjectionSeries items).length = items.length) ∧
    (d.mapLine = none → (markDirtyProjectionSeries items)[i]? = some d) ∧
    (∀ line, d.mapLine = some line →
      (markDirtyProjectionSeries items)[i]? = some { d with
        mapLine := some { geometry := line.geometry, dirtyProjection := true } }) := by
  refine ⟨by simp [markDirtyProjectionSeries], ?_, ?_⟩
  · intro hnone
    simp [markDirtyProjectionSeries, List.getElem?_map, h, hnone]
  · intro line hline
    simp [markDirtyProjectionSeries, List.getElem?_map, h, hline, markDirtyProjectionLine]

/-- Witness for C9 at a concrete series of two data items. -/
theorem markDirtyProjection_witness :
    (markDirtyProjectionSeries
      [ { mapLine := some { geometry := some (GeoGeometry.lineString [[1, 2]]),
                            dirtyProjection := false },
          geometry := none, pointsToConnect := none },
        { mapLine := none, geometry := none, pointsToConnect := none } ])[0]? =
    some { mapLine := some { geometry := some (GeoGeometry.lineString [[1, 2]]),
                             dirtyProjection := true },
           geometry := none, pointsToConnect := none } :=
  (markDirtyProjection_spec _ 0 _ rfl).2.2 _ rfl

/-- C8: processing a fresh data item makes it own exactly one map line,
present (once) in the mapLines list and not disposed; disposing the data
item then removes that line from the list, disposes it, and releases the
data item (the super call, modelled from the spec, disposes the item). -/
theorem disposeDataItem_spec (s : SeriesState) (d : SeriesDataItem)
    (hfresh : ∀ x ∈ s.mapLines, x < s.nextLineId)
    (hd : d.mapLine = none) :
    ∃ line,
      ((processDataItem s d).2.mapLine = some line) ∧
      ((processDataItem s d).1.mapLines.count line = 1) ∧
      (line ∉ (processDataItem s d).1.disposedLines ↔ line ∉ s.disposedLines) ∧
      ((disposeDataItem (processDataItem s d).1 (processDataItem s d).2).1.mapLines.count line = 0) ∧
      (line ∈ (disposeDataItem (processDataItem s d).1 (processDataItem s d).2).1.disposedLines) ∧
      ((disposeDataItem (processDataItem s d).1 (processDataItem s d).2).2.disposed = true) := by
  refine ⟨s.nextLineId, rfl, ?_, ?_, ?_, ?_, rfl⟩
  · have h0 : s.mapLines.count s.nextLineId = 0 := by
      rw [List.count_eq_zero]
      intro hmem
      exact absurd (hfresh _ hmem) (lt_irrefl _)
    simp [processDataItem, makeMapLine, List.count_append, h0]
  · simp [processDataItem, makeMapLine]
  · have h0 : s.mapLines.count s.nextLineId = 0 := by
      rw [List.count_eq_zero]
      intro hmem
      exact absurd (hfresh _ hmem) (lt_irrefl _)
    have hc : (processDataItem s d).1.mapLines.count s.nextLineId = 1 := by
      simp [processDataItem, makeMapLine, List.count_append, h0]
    simp only [disposeDataItem, processDataItem, makeMapLine, superDisposeDataItem]
    have := List.count_erase_self s.nextLineId ((makeMapLine s).1.mapLines)
    simp only [processDataItem] at hc
    simp [this, hc, h0]
  · simp [disposeDataItem, processDataItem, makeMapLine, superDisposeDataItem]

/-- Witness for C8 starting from the empty series. -/
theorem disposeDataItem_witness :
    ∃ line,
      ((processDataItem {} {}).2.mapLine = some line) ∧
      ((processDataItem {} {}).1.mapLines.count line = 1) ∧
      (line ∉ (processDataItem {} {}).1.disposedLines ↔ line ∉ SeriesState.disposedLines {}) ∧
      ((disposeDataItem (processDataItem {} {}).1 (processDataItem {} {}).2).1.mapLines.count line = 0) ∧
      (line ∈ (disposeDataItem (processDataItem {} {}).1 (processDataItem {} {}).2).1.disposedLines) ∧
      ((disposeDataItem (processDataItem {} {}).1 (processDataItem {} {}).2).2.disposed = true) :=
  disposeDataItem_spec {} {} (by intro x hx; simp at hx) rfl

/- ===================== claim theorems: menu build and clicks ============ -/

/-- C2: createItems renders exactly the configured items that pass both
capability tests, in declaration order; with the default item list and an
exporter supporting the png and csv formats and the image and data types,
the rendered format-item labels are exactly PNG and CSV. -/
theorem createItems_filter_spec :
    (∀ ex acc items, createItemsLoop ex acc items =
      acc ++ items.filter (fun it => formatSupported ex it && exportTypeSupported ex it)) ∧
    (∀ s ex, s.exporting = some ex →
      (createItems s).itemElements =
        s.items.filter (fun it => formatSupported ex it && exportTypeSupported ex it)) ∧
    (((createItems
        { exporting := some { supportedFormats := [ExpFormat.png, ExpFormat.csv],
                              supportedExportTypes := [ExpType.image, ExpType.data] },
          items := defaultItems }).itemElements.filter isFormatItem).map (fun it => it.label)
      = [some "PNG", some "CSV"]) := by
  refine ⟨fun ex acc items => createItemsLoop_eq_filter ex items acc, ?_, ?_⟩
  · intro s ex hex
    simp [createItems, hex, createItemsLoop_eq_filter]
  · rfl

/-- Witness for C2 discharging the exporter hypothesis at the default
configuration. -/
theorem createItems_filter_witness :
    (createItems
      { exporting := some { supportedFormats := [ExpFormat.png, ExpFormat.csv],
                            supportedExportTypes := [ExpType.image, ExpType.data] },
        items := defaultItems }).itemElements =
    defaultItems.filter (fun it =>
      formatSupported { supportedFormats := [ExpFormat.png, ExpFormat.csv],
                        supportedExportTypes := [ExpType.image, ExpType.data] } it &&
      exportTypeSupported { supportedFormats := [ExpFormat.png, ExpFormat.csv],
                            supportedExportTypes := [ExpType.image, ExpType.data] } it) :=
  createItems_filter_spec.2.1 _ _ rfl

/-- C3: the open and closed state machine of the menu: construction yields
a closed menu and dispatches menucreated exactly once (and no later open,
close or toggle call dispatches it again); open always ends open and
dispatches menuopened; close always ends closed, dispatches menuclosed,
and is idempotent on the state; toggle flips the state. -/
theorem menu_state_machine_spec :
    (afterNewMenu.isOpen = false) ∧
    (afterNewMenu.dispatched.count MenuEvent.menucreated = 1) ∧
    (∀ ops, ((applyMenuOps afterNewMenu ops).dispatched.count MenuEvent.menucreated) = 1) ∧
    (∀ s, (openMenu s).isOpen = true ∧
          (openMenu s).dispatched = s.dispatched ++ [MenuEvent.menuopened]) ∧
    (∀ s, (closeMenu s).isOpen = false ∧
          (closeMenu s).dispatched = s.dispatched ++ [MenuEvent.menuclosed] ∧
          (closeMenu (closeMenu s)).isOpen = (closeMenu s).isOpen) ∧
    (∀ s, (toggleMenu s).isOpen = !s.isOpen) := by
  refine ⟨rfl, rfl, ?_, ?_, ?_, ?_⟩
  · intro ops
    rw [applyMenuOps_menucreated_count]
    decide
  · intro s
    exact ⟨rfl, rfl⟩
  · intro s
    exact ⟨rfl, rfl, rfl⟩
  · intro s
    cases h : s.isOpen <;> simp [toggleMenu, h, openMenu, closeMenu]

/-- C4 counterexample: a click that reaches handleClick with no exporter
configured does fail: with autoClose at its default, the menu is closed and
then the call on the missing exporter throws (an error result), instead of
being a harmless no-op. -/
theorem handleClick_no_exporter_counterexample :
    handleClick none true
      { type := MenuItemType.format, format := some ExpFormat.png,
        exportType := some ExpType.image, label := some "PNG" } =
    Except.error [ClickAction.closeMenu] := rfl

/-- C4 amended: with no exporter configured, createItems is a no-op leaving
the rendered item elements unchanged, and a click reaching handleClick
performs no export action (no print and no download call); however such a
click throws after the optional close instead of returning cleanly. -/
theorem no_exporter_noop_spec :
    (∀ s : MenuConfig, s.exporting = none → createItems s = s) ∧
    (∀ autoClose it, ∃ pre,
      handleClick none autoClose it = Except.error pre ∧
      ClickAction.printCall ∉ pre ∧
      (∀ f, ClickAction.downloadCall f ∉ pre)) := by
  constructor
  · intro s hs
    simp [createItems, hs]
  · intro autoClose it
    refine ⟨if autoClose then [ClickAction.closeMenu] else [], rfl, ?_, ?_⟩
    · cases autoClose <;> simp
    · intro f
      cases autoClose <;> simp

/-- Witness for C4 discharging the no-exporter hypothesis at a concrete
configuration. -/
theorem no_exporter_noop_witness :
    createItems { exporting := none, items := defaultItems, itemElements := [] } =
      { exporting := none, items := defaultItems, itemElements := [] } :=
  no_exporter_noop_spec.1 _ rfl

/-- C5: clicking a format item with an exporter attached: with autoClose
set (its default), the close of the menu comes first in the action trace;
then the print sentinel invokes print and any other format invokes
download with that format. -/
theorem handleClick_format_spec (ex : Exporter) (it : IMenuItem) (f : ExpFormat)
    (hf : it.format = some f) :
    (f = ExpFormat.print →
      handleClick (some ex) true it =
        Except.ok [ClickAction.closeMenu, ClickAction.printCall]) ∧
    (f ≠ ExpFormat.print →
      handleClick (some ex) true it =
        Except.ok [ClickAction.closeMenu, ClickAction.downloadCall (some f)]) ∧
    (f ≠ ExpFormat.print →
      handleClick (some ex) false it =
        Except.ok [ClickAction.downloadCall (some f)]) := by
  refine ⟨?_, ?_, ?_⟩
  · intro hp
    subst hp
    simp [handleClick, hf]
  · intro hp
    simp [handleClick, hf, hp]
  · intro hp
    simp [handleClick, hf, hp]

/-- Witness for C5 at a concrete exporter and the csv format item. -/
theorem handleClick_format_witness :
    handleClick (some { supportedFormats := [ExpFormat.csv], supportedExportTypes := [ExpType.data] })
      true { type := MenuItemType.format, format := some ExpFormat.csv } =
    Except.ok [ClickAction.closeMenu, ClickAction.downloadCall (some ExpFormat.csv)] :=
  (handleClick_format_spec _ _ ExpFormat.csv rfl).2.1 (by decide)

/- ================ ExportingMenu keyboard arrow navigation ================ -/

/-- Vertical alignment setting of the menu. -/
inductive VAlign where
  | top | bottom
deriving DecidableEq

/-- Test used by the arrow loop: items of the separator type are skipped. -/
def isSeparator (it : IMenuItem) : Bool :=
  match it.type with
  | MenuItemType.separator => true
  | _ => false

/-- Index clamping performed at the top of each iteration of the do-while
loop: a negative index wraps to the last slot and an index past the end
wraps to the first slot. -/
def wrapIndex (n : Int) (i : Int) : Int :=
  if i < 0 then n - 1 else if i > n - 1 then 0 else i

/-- Outcome of running the do-while search for a bounded number of
iterations: the loop exits with an index, the item access is undefined and
the handler throws, or the loop is still running after the given number of
iterations. -/
inductive SearchOutcome where
  | found (j : Nat)
  | crash
  | outOfFuel
deriving DecidableEq

/-- The do-while search loop of the arrow-key handler: clamp the index,
read the item at it, step over separators in the travel direction, stop on
the first non-separator.  The fuel argument counts loop iterations; the
source loop is unbounded. -/
def arrowSearch (items : List IMenuItem) (dir : Int) : Nat → Int → SearchOutcome
  | 0, _ => SearchOutcome.outOfFuel
  | fuel + 1, newIndex =>
    match items.get? (wrapIndex (items.length : Int) newIndex).toNat with
    | none => SearchOutcome.crash
    | some it =>
      if isSeparator it then
        arrowSearch items dir fuel (wrapIndex (items.length : Int) newIndex + dir)
      else SearchOutcome.found (wrapIndex (items.length : Int) newIndex).toNat

/-- The arrow branch of the keydown handler: the current index is the index
of the active item in the configured items setting (indexOf, hence -1 when
no item is active), replaced by the list length when the menu is
top-aligned and nothing is active; key code 38 walks up, 40 walks down. -/
def keyArrowIndex (items : List IMenuItem) (valign : VAlign) (activeIndex : Option Nat)
    (keyCode : Nat) (fuel : Nat) : SearchOutcome :=
  let currentIndex : Int :=
    match activeIndex with
    | some c => (c : Int)
    | none => if valign = VAlign.top then (items.length : Int) else -1
  let dir : Int := if keyCode = 38 then -1 else 1
  arrowSearch items dir fuel (currentIndex + dir)

/-- After the loop the handler focuses the found item, making it the
active item; on any other outcome the active item is unchanged. -/
def keydownArrow (items : List IMenuItem) (valign : VAlign) (activeIndex : Option Nat)
    (keyCode : Nat) (fuel : Nat) : Option Nat :=
  match keyArrowIndex items valign activeIndex keyCode fuel with
  | SearchOutcome.found j => some j
  | _ => activeIndex

/-- Whether slot j of the configured items holds a non-separator item. -/
def interactiveAt (items : List IMenuItem) (j : Nat) : Bool :=
  match items.get? j with
  | some it => !(isSeparator it)
  | none => false

/-- Positions visited starting at p and stepping by dir, reduced modulo the
list length (recursive form, parallel to the loop). -/
def posList (n : Nat) (p dir : Int) : Nat → List Nat
  | 0 => []
  | f + 1 => (p % (n : Int)).toNat :: posList n (p + dir) dir f

/-- Positions of one full turn starting at p, in closed form. -/
def turnPositions (n : Nat) (p dir : Int) (f : Nat) : List Nat :=
  (List.range f).map (fun (t : Nat) => ((p + dir * (t : Int)) % (n : Int)).toNat)

/-- Specification-side reading of circular travel: the slots strictly after
c in direction dir, in visiting order, one full turn. -/
def circularPositions (n : Nat) (c : Int) (dir : Int) : List Nat :=
  (List.range n).map (fun (t : Nat) => ((c + dir * ((t : Int) + 1)) % (n : Int)).toNat)

/-- The next interactive slot strictly after c in direction dir, circularly. -/
def nextInteractive (items : List IMenuItem) (c : Int) (dir : Int) : Option Nat :=
  (circularPositions items.length c dir).find? (interactiveAt items)

/-- The first interactive slot of the list. -/
def firstInteractive (items : List IMenuItem) : Option Nat :=
  (List.range items.length).find? (interactiveAt items)

/-- The last interactive slot of the list. -/
def lastInteractive (items : List IMenuItem) : Option Nat :=
  (List.range items.length).reverse.find? (interactiveAt items)

/-- Whether the list holds at least one non-separator item. -/
def hasInteractive (items : List IMenuItem) : Bool :=
  items.any (fun it => !(isSeparator it))

/-- Packaging of an optional slot as a search outcome. -/
def outcomeOf : Option Nat → SearchOutcome
  | some j => SearchOutcome.found j
  | none => SearchOutcome.outOfFuel

/- ================ helper lemmas for the navigation loop ================ -/

theorem wrapIndex_idem (n i : Int) : wrapIndex n (wrapIndex n i) = wrapIndex n i := by
  simp only [wrapIndex]
  split_ifs <;> omega

theorem arrowSearch_wrap (items : List IMenuItem) (dir : Int) (f : Nat) (s : Int) :
    arrowSearch items dir f s = arrowSearch items dir f (wrapIndex (items.length : Int) s) := by
  cases f with
  | zero => rfl
  | succ f => simp only [arrowSearch, wrapIndex_idem]

theorem wrapIndex_emod (n s : Int) (hn : 0 < n) (h1 : -1 ≤ s) (h2 : s ≤ n) :
    wrapIndex n s = s % n := by
  simp only [wrapIndex]
  split_ifs with hlt hgt
  · have hs : s = -1 := by omega
    subst hs
    have h3 : (-1 : Int) % n = (-1 + n * 1) % n := (Int.add_mul_emod_self_left (-1) n 1).symm
    have h4 : (-1 + n * 1 : Int) = n - 1 := by ring
    rw [h3, h4, Int.emod_eq_of_lt (by omega) (by omega)]
  · have hs : s = n := by omega
    subst hs
    rw [Int.emod_self]
  · rw [Int.emod_eq_of_lt (by omega) (by omega)]

theorem wrapIndex_mem_range (n s : Int) (hn : 0 < n) :
    0 ≤ wrapIndex n s ∧ wrapIndex n s < n := by
  simp only [wrapIndex]
  split_ifs <;> omega

theorem emod_shift (n a b d t : Int) (h : a % n = b % n) :
    (a + d * t) % n = (b + d * t) % n := by
  rw [Int.add_emod, h, ← Int.add_emod]

theorem map_congr_mem {α β : Type} (l : List α) (f g : α → β)
    (h : ∀ x ∈ l, f x = g x) : l.map f = l.map g := by
  induction l with
  | nil => rfl
  | cons a l ih =>
      simp only [List.map_cons, h a (by simp)]
      rw [ih fun x hx => h x (by simp [hx])]

theorem find?_append_some {α : Type} (p : α → Bool) (l1 l2 : List α) (x : α)
    (h : l1.find? p = some x) : (l1 ++ l2).find? p = some x := by
  induction l1 with
  | nil => simp [List.find?] at h
  | cons a l ih =>
      simp only [List.cons_append]
      cases hpa : p a with
      | true =>
          rw [List.find?_cons_of_pos _ hpa] at h
          rw [List.find?_cons_of_pos _ hpa]
          exact h
      | false =>
          rw [List.find?_cons_of_neg _ (by simp [hpa])] at h
          rw [List.find?_cons_of_neg _ (by simp [hpa])]
          exact ih h

theorem arrowSearch_succ_of_get (items : List IMenuItem) (dir : Int) (f : Nat) (p : Nat)
    (hp : p < items.length) (it : IMenuItem) (hit : items.get? p = some it) :
    arrowSearch items dir (f + 1) (p : Int) =
      if isSeparator it then arrowSearch items dir f ((p : Int) + dir)
      else SearchOutcome.found p := by
  have hwrap : wrapIndex (items.length : Int) (p : Int) = (p : Int) := by
    simp only [wrapIndex]
    rw [if_neg (by omega), if_neg (by omega)]
  have htn : ((p : Int)).toNat = p := by omega
  simp only [arrowSearch, hwrap, htn, hit]

theorem posList_emod_congr (n : Nat) (dir : Int) :
    ∀ (f : Nat) (a b : Int), a % (n : Int) = b % (n : Int) →
      posList n a dir f = posList n b dir f := by
  intro f
  induction f with
  | zero => intro a b _; rfl
  | succ f ih =>
      intro a b h
      simp only [posList]
      rw [h, ih (a + dir) (b + dir) (by rw [Int.add_emod, h, ← Int.add_emod])]

theorem posList_eq_turn (n : Nat) (dir : Int) :
    ∀ (f : Nat) (p : Int), posList n p dir f = turnPositions n p dir f := by
  intro f
  induction f with
  | zero => intro p; rfl
  | succ f ih =>
      intro p
      simp only [posList, ih (p + dir)]
      simp only [turnPositions]
      rw [List.range_succ_eq_map, List.map_cons, List.map_map]
      congr 1
      · norm_num
      · congr 1
        funext t
        have h2 : (p + dir * ((Nat.succ t : Nat) : Int)) = ((p + dir) + dir * (t : Int)) := by
          push_cast
          ring
        simp only [Function.comp]
        rw [h2]

theorem arrowSearch_eq_posList (items : List IMenuItem) (dir : Int)
    (hdir : dir = 1 ∨ dir = -1) :
    ∀ (f : Nat) (p : Nat), p < items.length →
      arrowSearch items dir f (p : Int) =
        outcomeOf ((posList items.length (p : Int) dir f).find? (interactiveAt items)) := by
  intro f
  induction f with
  | zero =>
      intro p hp
      rfl
  | succ f ih =>
      intro p hp
      have hn : 0 < items.length := Nat.lt_of_le_of_lt (Nat.zero_le p) hp
      obtain ⟨it, hit⟩ : ∃ it, items.get? p = some it :=
        ⟨items.get ⟨p, hp⟩, List.get?_eq_get hp⟩
      rw [arrowSearch_succ_of_get items dir f p hp it hit]
      have hpm : ((p : Int) % (items.length : Int)).toNat = p := by
        rw [Int.emod_eq_of_lt (by omega) (by omega)]
        omega
      simp only [posList]
      rw [hpm]
      cases hsep : isSeparator it with
      | false =>
          have hia : interactiveAt items p = true := by
            simp only [interactiveAt, hit, hsep]
            rfl
          rw [List.find?_cons_of_pos _ hia]
          rfl
      | true =>
          have hia : ¬ interactiveAt items p = true := by
            simp only [interactiveAt, hit, hsep]
            decide
          rw [List.find?_cons_of_neg _ hia]
          have hlen0 : ((items.length : Int)) ≠ 0 := by omega
          have hlenpos : (0 : Int) < (items.length : Int) := by omega
          have hbound1 : (-1 : Int) ≤ (p : Int) + dir := by rcases hdir with h | h <;> omega
          have hbound2 : (p : Int) + dir ≤ (items.length : Int) := by
            rcases hdir with h | h <;> omega
          have hmn : 0 ≤ ((p : Int) + dir) % (items.length : Int) := Int.emod_nonneg _ hlen0
          have hml : ((p : Int) + dir) % (items.length : Int) < (items.length : Int) :=
            Int.emod_lt_of_pos _ hlenpos
          obtain ⟨q, hqlt, hqcast⟩ : ∃ q : Nat, q < items.length ∧
              (q : Int) = ((p : Int) + dir) % (items.length : Int) :=
            ⟨(((p : Int) + dir) % (items.length : Int)).toNat, by omega, by omega⟩
          have hstep : arrowSearch items dir f ((p : Int) + dir) =
              arrowSearch items dir f (q : Int) := by
            rw [arrowSearch_wrap items dir f ((p : Int) + dir),
                wrapIndex_emod _ _ hlenpos hbound1 hbound2, ← hqcast]
          have hcong : posList items.length ((p : Int) + dir) dir f =
              posList items.length (q : Int) dir f := by
            refine posList_emod_congr items.length dir f _ _ ?_
            rw [hqcast, Int.emod_emod_of_dvd _ dvd_rfl]
          rw [hstep, ih q hqlt, hcong]
          rfl

theorem hasInteractive_index (items : List IMenuItem) (h : hasInteractive items = true) :
    ∃ jdx, jdx < items.length ∧ interactiveAt items jdx = true := by
  rcases List.any_eq_true.mp h with ⟨it, hmem, hb⟩
  rcases List.get?_of_mem hmem with ⟨jdx, hget⟩
  refine ⟨jdx, ?_, ?_⟩
  · rcases List.get?_eq_some.mp hget with ⟨h1, _⟩
    exact h1
  · simp only [interactiveAt, hget]
    exact hb

theorem turn_cover (items : List IMenuItem) (dir : Int) (hdir : dir = 1 ∨ dir = -1)
    (p : Nat) (hp : p < items.length) (hint : hasInteractive items = true) :
    ∃ j, (turnPositions items.length (p : Int) dir items.length).find?
      (interactiveAt items) = some j := by
  obtain ⟨jdx, hjlt, hjint⟩ := hasInteractive_index items hint
  have hex : ∃ t, t < items.length ∧
      (((p : Int) + dir * (t : Int)) % (items.length : Int)).toNat = jdx := by
    rcases hdir with h | h
    · subst h
      by_cases hle : p ≤ jdx
      · refine ⟨jdx - p, by omega, ?_⟩
        have h2 : ((p : Int) + 1 * ((jdx - p : Nat) : Int)) = (jdx : Int) := by
          have hc : ((jdx - p : Nat) : Int) = (jdx : Int) - p := by omega
          rw [hc]; ring
        rw [h2, Int.emod_eq_of_lt (by omega) (by omega)]
        omega
      · refine ⟨items.length + jdx - p, by omega, ?_⟩
        have h2 : ((p : Int) + 1 * ((items.length + jdx - p : Nat) : Int))
            = (jdx : Int) + (items.length : Int) * 1 := by
          have hc : ((items.length + jdx - p : Nat) : Int)
              = (items.length : Int) + jdx - p := by omega
          rw [hc]; ring
        rw [h2, Int.add_mul_emod_self_left, Int.emod_eq_of_lt (by omega) (by omega)]
        omega
    · subst h
      by_cases hle : jdx ≤ p
      · refine ⟨p - jdx, by omega, ?_⟩
        have h2 : ((p : Int) + (-1) * ((p - jdx : Nat) : Int)) = (jdx : Int) := by
          have hc : ((p - jdx : Nat) : Int) = (p : Int) - jdx := by omega
          rw [hc]; ring
        rw [h2, Int.emod_eq_of_lt (by omega) (by omega)]
        omega
      · refine ⟨items.length + p - jdx, by omega, ?_⟩
        have h2 : ((p : Int) + (-1) * ((items.length + p - jdx : Nat) : Int))
            = (jdx : Int) + (items.length : Int) * (-1) := by
          have hc : ((items.length + p - jdx : Nat) : Int)
              = (items.length : Int) + p - jdx := by omega
          rw [hc]; ring
        rw [h2, Int.add_mul_emod_self_left, Int.emod_eq_of_lt (by omega) (by omega)]
        omega
  obtain ⟨t, htlt, htval⟩ := hex
  have hmem : jdx ∈ turnPositions items.length (p : Int) dir items.length := by
    rw [← htval]
    exact List.mem_map_of_mem _ (List.mem_range.mpr htlt)
  have hsome : ((turnPositions items.length (p : Int) dir items.length).find?
      (interactiveAt items)).isSome := by
    rw [List.find?_isSome]
    exact ⟨jdx, hmem, hjint⟩
  exact Option.isSome_iff_exists.mp hsome

theorem find?_turn_ge (n : Nat) (p dir : Int) (pr : Nat → Bool) (x : Nat) (f0 : Nat)
    (h : (turnPositions n p dir f0).find? pr = some x) :
    ∀ f, f0 ≤ f → (turnPositions n p dir f).find? pr = some x := by
  intro f hf
  refine Nat.le_induction h ?_ f hf
  intro m _ ihm
  have hsplit : turnPositions n p dir (m + 1) =
      turnPositions n p dir m ++ [((p + dir * (m : Int)) % (n : Int)).toNat] := by
    simp [turnPositions, List.range_succ]
  rw [hsplit]
  exact find?_append_some _ _ _ _ ihm

theorem arrowSearch_stable (items : List IMenuItem) (dir : Int) (hdir : dir = 1 ∨ dir = -1)
    (p : Nat) (hp : p < items.length) (hint : hasInteractive items = true)
    (f : Nat) (hf : items.length ≤ f) :
    arrowSearch items dir f (p : Int) =
      outcomeOf ((turnPositions items.length (p : Int) dir items.length).find?
        (interactiveAt items)) := by
  obtain ⟨j, hj⟩ := turn_cover items dir hdir p hp hint
  rw [arrowSearch_eq_posList items dir hdir f p hp, posList_eq_turn,
      find?_turn_ge _ _ _ _ _ _ hj f hf, hj]

theorem arrowSearch_found_interactive (items : List IMenuItem) (dir : Int) :
    ∀ (f : Nat) (s : Int) (j : Nat),
      arrowSearch items dir f s = SearchOutcome.found j → interactiveAt items j = true := by
  intro f
  induction f with
  | zero =>
      intro s j h
      simp [arrowSearch] at h
  | succ f ih =>
      intro s j h
      rw [arrowSearch] at h
      cases hget : items.get? (wrapIndex (items.length : Int) s).toNat with
      | none =>
          simp only [hget] at h
          cases h
      | some it =>
          simp only [hget] at h
          split at h
          next hc => exact ih _ j h
          next hc =>
              cases h
              have hsep : isSeparator it = false := by
                cases hb : isSeparator it
                · rfl
                · exact absurd hb hc
              simp only [interactiveAt, hget, hsep]
              rfl

theorem arrowSearch_all_separators (items : List IMenuItem) (dir : Int)
    (hne : items ≠ []) (hall : ∀ it ∈ items, isSeparator it = true) :
    ∀ (f : Nat) (s : Int), arrowSearch items dir f s = SearchOutcome.outOfFuel := by
  intro f
  induction f with
  | zero => intro s; rfl
  | succ f ih =>
      intro s
      have hn : 0 < items.length := List.length_pos.mpr hne
      have hrange := wrapIndex_mem_range (items.length : Int) s (by omega)
      have hlt : (wrapIndex (items.length : Int) s).toNat < items.length := by omega
      obtain ⟨it, hit⟩ : ∃ it, items.get? (wrapIndex (items.length : Int) s).toNat = some it :=
        ⟨items.get ⟨_, hlt⟩, List.get?_eq_get hlt⟩
      have hsep : isSeparator it = true := hall it (List.get?_mem hit)
      rw [arrowSearch]
      simp only [hit]
      rw [if_pos hsep, ih]

theorem turn_eq_circular (n : Nat) (p0 : Nat) (c dir : Int)
    (h : (p0 : Int) = (c + dir) % (n : Int)) :
    turnPositions n (p0 : Int) dir n = circularPositions n c dir := by
  simp only [turnPositions, circularPositions]
  congr 1
  funext t
  have h1 : ((p0 : Int) + dir * (t : Int)) % (n : Int)
      = ((c + dir) + dir * (t : Int)) % (n : Int) := by
    refine emod_shift _ _ _ _ _ ?_
    rw [h, Int.emod_emod_of_dvd _ dvd_rfl]
  have h2 : (c + dir * ((t : Int) + 1)) = ((c + dir) + dir * (t : Int)) := by ring
  rw [h1, h2]

theorem turn_up_from_last (n : Nat) (hn : 0 < n) :
    turnPositions n ((n - 1 : Nat) : Int) (-1) n = (List.range n).reverse := by
  rw [List.range_eq_range', List.reverse_range']
  simp only [turnPositions, List.range_eq_range']
  refine map_congr_mem _ _ _ ?_
  intro t ht
  have htn : t < n := by
    have := List.mem_range'_1.mp ht
    omega
  have hcast : (((n - 1 : Nat) : Int) + (-1) * (t : Int)) = ((n - 1 - t : Nat) : Int) := by
    omega
  rw [hcast, Int.emod_eq_of_lt (by omega) (by omega)]
  omega

theorem turn_down_from_start (n : Nat) :
    turnPositions n ((0 : Nat) : Int) 1 n = List.range n := by
  have hmap : List.range n = (List.range n).map (fun t => t) := by
    simp
  rw [turnPositions]
  conv_rhs => rw [hmap]
  refine map_congr_mem _ _ _ ?_
  intro t ht
  have htn : t < n := List.mem_range.mp ht
  have hcast : (((0 : Nat) : Int) + 1 * (t : Int)) = (t : Int) := by omega
  rw [hcast, Int.emod_eq_of_lt (by omega) (by omega)]
  omega

theorem keyArrow_active (items : List IMenuItem) (v : VAlign) (c : Nat)
    (hc : c < items.length) (hint : hasInteractive items = true)
    (kc : Nat) (f : Nat) (hf : items.length ≤ f) :
    keyArrowIndex items v (some c) kc f =
      outcomeOf (nextInteractive items (c : Int) (if kc = 38 then -1 else 1)) := by
  simp only [keyArrowIndex]
  generalize hd : (if kc = 38 then (-1 : Int) else 1) = d
  have hdir : d = 1 ∨ d = -1 := by
    by_cases hkc : kc = 38
    · simp [hkc] at hd
      exact Or.inr hd.symm
    · simp [hkc] at hd
      exact Or.inl hd.symm
  have hn : 0 < items.length := Nat.lt_of_le_of_lt (Nat.zero_le c) hc
  have hlenpos : (0 : Int) < (items.length : Int) := by omega
  have hmn : 0 ≤ ((c : Int) + d) % (items.length : Int) :=
    Int.emod_nonneg _ (by omega)
  have hml : ((c : Int) + d) % (items.length : Int) < (items.length : Int) :=
    Int.emod_lt_of_pos _ hlenpos
  obtain ⟨p0, hp0lt, hp0cast⟩ : ∃ p0 : Nat, p0 < items.length ∧
      (p0 : Int) = ((c : Int) + d) % (items.length : Int) :=
    ⟨(((c : Int) + d) % (items.length : Int)).toNat, by omega, by omega⟩
  rw [arrowSearch_wrap items d f ((c : Int) + d),
      wrapIndex_emod _ _ hlenpos (by rcases hdir with h | h <;> omega)
        (by rcases hdir with h | h <;> omega),
      ← hp0cast,
      arrowSearch_stable items d hdir p0 hp0lt hint f hf,
      nextInteractive, turn_eq_circular items.length p0 (c : Int) d hp0cast]

theorem keyArrow_top_none_up (items : List IMenuItem) (hint : hasInteractive items = true)
    (f : Nat) (hf : items.length ≤ f) :
    keyArrowIndex items VAlign.top none 38 f = outcomeOf (lastInteractive items) := by
  have hn : 0 < items.length := by
    obtain ⟨jdx, hjlt, _⟩ := hasInteractive_index items hint
    omega
  have hunfold : keyArrowIndex items VAlign.top none 38 f
      = arrowSearch items (-1) f ((items.length : Int) + (-1)) := rfl
  have hstart : ((items.length : Int) + (-1)) = ((items.length - 1 : Nat) : Int) := by
    omega
  rw [hunfold, hstart,
      arrowSearch_stable items _ (Or.inr rfl) (items.length - 1) (by omega) hint f hf,
      lastInteractive, turn_up_from_last items.length hn]

theorem keyArrow_top_none_down (items : List IMenuItem) (hint : hasInteractive items = true)
    (f : Nat) (hf : items.length ≤ f) :
    keyArrowIndex items VAlign.top none 40 f = outcomeOf (firstInteractive items) := by
  have hn : 0 < items.length := by
    obtain ⟨jdx, hjlt, _⟩ := hasInteractive_index items hint
    omega
  have hunfold : keyArrowIndex items VAlign.top none 40 f
      = arrowSearch items 1 f ((items.length : Int) + 1) := rfl
  have hwrap : wrapIndex (items.length : Int) ((items.length : Int) + 1) = ((0 : Nat) : Int) := by
    simp only [wrapIndex]
    rw [if_neg (by omega), if_pos (by omega)]
    rfl
  rw [hunfold, arrowSearch_wrap items 1 f _, hwrap,
      arrowSearch_stable items _ (Or.inl rfl) 0 (by omega) hint f hf,
      firstInteractive, turn_down_from_start items.length]

theorem keyArrow_found_of_hasInteractive (items : List IMenuItem)
    (hint : hasInteractive items = true) (v : VAlign) (act : Option Nat) (kc f : Nat)
    (hf : items.length ≤ f) :
    ∃ j, keyArrowIndex items v act kc f = SearchOutcome.found j := by
  have hn : 0 < items.length := by
    obtain ⟨jdx, hjlt, _⟩ := hasInteractive_index items hint
    omega
  simp only [keyArrowIndex]
  generalize hd : (if kc = 38 then (-1 : Int) else 1) = d
  have hdir : d = 1 ∨ d = -1 := by
    by_cases hkc : kc = 38
    · simp [hkc] at hd
      exact Or.inr hd.symm
    · simp [hkc] at hd
      exact Or.inl hd.symm
  generalize ((match act with
    | some c => (c : Int)
    | none => if v = VAlign.top then (items.length : Int) else -1) + d) = s
  have hw := wrapIndex_mem_range (items.length : Int) s (by omega)
  obtain ⟨p0, hp0lt, hp0cast⟩ : ∃ p0 : Nat, p0 < items.length ∧
      (p0 : Int) = wrapIndex (items.length : Int) s :=
    ⟨(wrapIndex (items.length : Int) s).toNat, by omega, by omega⟩
  rw [arrowSearch_wrap items d f s, ← hp0cast,
      arrowSearch_stable items d hdir p0 hp0lt hint f hf]
  obtain ⟨j, hj⟩ := turn_cover items d hdir p0 hp0lt hint
  refine ⟨j, ?_⟩
  rw [hj]
  rfl

/- ================ claim theorems: keyboard navigation ================ -/

/-- C6: with at least one interactive item configured, the arrow handler
never selects a separator; Down from an active item selects the next
non-separator slot in circular order and Up the previous one; with no
active item and a top-aligned menu the virtual start is just past the end,
so Up selects the last interactive slot and Down enters the cycle at the
first interactive slot, from which repeated Down, by the circular-next
property, walks all interactive slots and wraps back. -/
theorem arrow_navigation_spec (items : List IMenuItem) (hint : hasInteractive items = true) :
    (∀ (v : VAlign) (act : Option Nat) (kc f j : Nat),
        keyArrowIndex items v act kc f = SearchOutcome.found j →
        interactiveAt items j = true) ∧
    (∀ (v : VAlign) (c : Nat), c < items.length → ∀ f, items.length ≤ f →
        keyArrowIndex items v (some c) 40 f = outcomeOf (nextInteractive items (c : Int) 1)) ∧
    (∀ (v : VAlign) (c : Nat), c < items.length → ∀ f, items.length ≤ f →
        keyArrowIndex items v (some c) 38 f = outcomeOf (nextInteractive items (c : Int) (-1))) ∧
    (∀ f, items.length ≤ f →
        keyArrowIndex items VAlign.top none 38 f = outcomeOf (lastInteractive items)) ∧
    (∀ f, items.length ≤ f →
        keyArrowIndex items VAlign.top none 40 f = outcomeOf (firstInteractive items)) := by
  refine ⟨?_, ?_, ?_, ?_, ?_⟩
  · intro v act kc f j h
    simp only [keyArrowIndex] at h
    exact arrowSearch_found_interactive items _ f _ j h
  · intro v c hc f hf
    exact keyArrow_active items v c hc hint 40 f hf
  · intro v c hc f hf
    exact keyArrow_active items v c hc hint 38 f hf
  · exact keyArrow_top_none_up items hint
  · exact keyArrow_top_none_down items hint

/-- A four-item list used to exercise the navigation theorems: separator,
png, separator, csv. -/
def navItems : List IMenuItem :=
  [ { type := MenuItemType.separator },
    { type := MenuItemType.format, format := some ExpFormat.png },
    { type := MenuItemType.separator },
    { type := MenuItemType.format, format := some ExpFormat.csv } ]

/-- Witness for C6: Down from the active png item (slot 1) skips the
separator at slot 2 and selects the csv item at slot 3. -/
theorem arrow_navigation_witness :
    keyArrowIndex navItems VAlign.top (some 1) 40 4 = SearchOutcome.found 3 := by
  have h := (arrow_navigation_spec navItems (by decide)).2.1 VAlign.top 1 (by decide) 4
    (by decide)
  rw [h]
  decide

/-- C7: with at least one interactive item the circular search exits with
a found slot within one full turn (for every fuel of at least the list
length, for every alignment, active slot and arrow key); with a non-empty
list of separators only, the loop is still running after every finite
number of iterations, for any fuel: it does not terminate. -/
theorem arrow_search_termination_spec (items : List IMenuItem) :
    (hasInteractive items = true →
      ∀ (v : VAlign) (act : Option Nat) (kc f : Nat), items.length ≤ f →
        ∃ j, keyArrowIndex items v act kc f = SearchOutcome.found j) ∧
    (items ≠ [] → (∀ it ∈ items, isSeparator it = true) →
      ∀ (v : VAlign) (act : Option Nat) (kc f : Nat),
        keyArrowIndex items v act kc f = SearchOutcome.outOfFuel) := by
  constructor
  · intro hint v act kc f hf
    exact keyArrow_found_of_hasInteractive items hint v act kc f hf
  · intro hne hall v act kc f
    simp only [keyArrowIndex]
    exact arrowSearch_all_separators items _ hne hall f _

/-- A non-empty list holding only a separator. -/
def sepOnlyItems : List IMenuItem := [ { type := MenuItemType.separator } ]

/-- Witness for C7: a list with interactive items terminates with a found
slot; the separator-only list exhausts any iteration bound. -/
theorem arrow_search_termination_witness :
    (∃ j, keyArrowIndex navItems VAlign.top none 40 4 = SearchOutcome.found j) ∧
    (keyArrowIndex sepOnlyItems VAlign.top none 40 7 = SearchOutcome.outOfFuel) :=
  ⟨(arrow_search_termination_spec navItems).1 (by decide) VAlign.top none 40 4 (by decide),
   (arrow_search_termination_spec sepOnlyItems).2 (by decide) (by decide)
     VAlign.top none 40 7⟩

/-- C10: arrow navigation indexes the configured items setting, not the
rendered list: a non-separator item whose format or export type the
exporter does not support is absent from the rendered elements of
createItems, yet pressing Down from the slot just before it makes it the
active item. -/
theorem unsupported_item_active_spec (items : List IMenuItem) (j : Nat) (it : IMenuItem)
    (ex : Exporter) (v : VAlign)
    (hget : items.get? j = some it)
    (hsep : isSeparator it = false)
    (hunsup : formatSupported ex it = false ∨ exportTypeSupported ex it = false) :
    (it ∉ (createItems
      { exporting := some ex, items := items, itemElements := [] }).itemElements) ∧
    (∀ f, 1 ≤ f →
      keydownArrow items v (some (if j = 0 then items.length - 1 else j - 1)) 40 f
        = some j) := by
  have hjlt : j < items.length := by
    rcases List.get?_eq_some.mp hget with ⟨h1, _⟩
    exact h1
  have hn : 0 < items.length := Nat.lt_of_le_of_lt (Nat.zero_le j) hjlt
  constructor
  · have hrend : (createItems
        { exporting := some ex, items := items, itemElements := [] }).itemElements =
        items.filter (fun x => formatSupported ex x && exportTypeSupported ex x) := by
      simp [createItems, createItemsLoop_eq_filter]
    rw [hrend]
    intro hmem
    have hpass := (List.mem_filter.mp hmem).2
    rcases hunsup with h | h <;> simp [h] at hpass
  · intro f hf
    cases f with
    | zero => omega
    | succ f =>
        have hfound : keyArrowIndex items v
            (some (if j = 0 then items.length - 1 else j - 1)) 40 (f + 1)
            = SearchOutcome.found j := by
          by_cases hj0 : j = 0
          · subst hj0
            rw [if_pos rfl]
            have hunfold : keyArrowIndex items v (some (items.length - 1)) 40 (f + 1)
                = arrowSearch items 1 (f + 1) (((items.length - 1 : Nat) : Int) + 1) := rfl
            have hstart : (((items.length - 1 : Nat) : Int) + 1) = (items.length : Int) := by
              omega
            have hwrap0 : wrapIndex (items.length : Int) (items.length : Int)
                = ((0 : Nat) : Int) := by
              simp only [wrapIndex]
              rw [if_neg (by omega), if_pos (by omega)]
              rfl
            rw [hunfold, hstart, arrowSearch_wrap items 1 (f + 1) _, hwrap0,
                arrowSearch_succ_of_get items 1 f 0 hn it hget,
                if_neg (by simp [hsep])]
          · rw [if_neg hj0]
            have hunfold : keyArrowIndex items v (some (j - 1)) 40 (f + 1)
                = arrowSearch items 1 (f + 1) (((j - 1 : Nat) : Int) + 1) := rfl
            have hstart : (((j - 1 : Nat) : Int) + 1) = (j : Int) := by omega
            rw [hunfold, hstart,
                arrowSearch_succ_of_get items 1 f j hjlt it hget,
                if_neg (by simp [hsep])]
        simp only [keydownArrow, hfound]

/-- A two-item list: png then jpg, both format items. -/
def partialItems : List IMenuItem :=
  [ { type := MenuItemType.format, format := some ExpFormat.png },
    { type := MenuItemType.format, format := some ExpFormat.jpg } ]

/-- Witness for C10: with only png supported, the jpg item is not rendered
but Down from slot 0 makes it active. -/
theorem unsupported_item_active_witness :
    (({ type := MenuItemType.format, format := some ExpFormat.jpg } : IMenuItem) ∉
      (createItems { exporting := some { supportedFormats := [ExpFormat.png],
                                         supportedExportTypes := [] },
                     items := partialItems, itemElements := [] }).itemElements) ∧
    keydownArrow partialItems VAlign.top (some 0) 40 1 = some 1 := by
  have h := unsupported_item_active_spec partialItems 1
    { type := MenuItemType.format, format := some ExpFormat.jpg }
    { supportedFormats := [ExpFormat.png], supportedExportTypes := [] }
    VAlign.top rfl rfl (Or.inl (by decide))
  exact ⟨h.1, h.2 1 (by decide)⟩
